import Mathlib

/-!
Shallow embedding of scnlib's boolean reader
(`src/scn/impl/reader/bool_reader.h`).

The input range is modelled as a `List Char` of code units; a successful
match returns the remaining list (the advanced iterator), and a failed
match returns no position, which models the backtracking invariant: a
failing primitive leaves the position untouched.  The C++ out-parameter
`bool& value` is modelled by threading the slot explicitly: every reader
operation takes the current slot contents and returns the pair of the
scan result (`Except scan_error (List Char)`) and the final slot
contents.
-/

/-- Modelled from the spec: the error-contract kinds relevant to this core
(`scan_error` lives in `scn/detail/error.h`, which is not under `src/`).
The spec names `invalidScannedValue` for value errors and a separate
specification-level error kind for `checkSpec` failures. -/
inductive scan_error_kind where
  | invalid_scanned_value
  | invalid_specification
deriving DecidableEq, Repr

/-- Modelled from the spec: the error record `{kind, message}` of the
result/error-propagation primitive (not under `src/`). -/
structure scan_error where
  kind : scan_error_kind
  msg : String
deriving DecidableEq, Repr

/-- Modelled from the spec: the single-code-unit match primitive
`read_matching_code_unit` (declared in `scn/impl/reader/common.h`, not
under `src/`).  Per the InputRange contract it consumes and advances
exactly when the next code unit equals the expected one, and leaves the
position untouched otherwise. -/
def read_matching_code_unit (range : List Char) (ch : Char) :
    Option (List Char) :=
  match range with
  | [] => none
  | c :: rest => if c = ch then some rest else none

/-- Modelled from the spec: the literal-string match primitive
`read_matching_string` (`scn/impl/reader/common.h`, not under `src/`),
i.e. the `matchLiteral` capability: consumes and advances only on a full
match of the literal at the current position, and leaves the position
untouched on a partial or failed match. -/
def read_matching_string (range : List Char) (str : List Char) :
    Option (List Char) :=
  match str, range with
  | [], rest => some rest
  | _ :: _, [] => none
  | s :: ss, c :: cs =>
    if c = s then read_matching_string cs ss else none
termination_by structural str

/-- Modelled from the spec: the classic (locale-independent) variant of the
literal-string match primitive (`scn/impl/reader/common.h`, not under
`src/`); same `matchLiteral` contract as `read_matching_string`. -/
def read_matching_string_classic (range : List Char) (str : List Char) :
    Option (List Char) :=
  read_matching_string range str

/-- `bool_reader_base::options_type::allow_text = 1`. -/
def allow_text : Nat := 1

/-- `bool_reader_base::options_type::allow_numeric = 2`. -/
def allow_numeric : Nat := 2

/-- `bool_reader_base::read_numeric`: match `'0'` (value `false`) else
`'1'` (value `true`); on no match, return `invalid_scanned_value` and
leave the value slot as it was. -/
def read_numeric (range : List Char) (value : Bool) :
    Except scan_error (List Char) × Bool :=
  match read_matching_code_unit range '0' with
  | some r => (Except.ok r, false)
  | none =>
    match read_matching_code_unit range '1' with
    | some r => (Except.ok r, true)
    | none =>
      (Except.error
        ⟨scan_error_kind.invalid_scanned_value, "read_numeric: No match"⟩,
       value)

/-- `bool_reader_base::read_textual_classic`: match the literal `"true"`
(value `true`) else `"false"` (value `false`); on no match, return
`invalid_scanned_value` and leave the value slot as it was. -/
def read_textual_classic (range : List Char) (value : Bool) :
    Except scan_error (List Char) × Bool :=
  match read_matching_string_classic range ("true".toList) with
  | some r => (Except.ok r, true)
  | none =>
    match read_matching_string_classic range ("false".toList) with
    | some r => (Except.ok r, false)
    | none =>
      (Except.error
        ⟨scan_error_kind.invalid_scanned_value, "read_textual: No match"⟩,
       value)

/-- `bool_reader_base::read_classic`: `err` starts as the generic
"Failed to read boolean" error; if `allow_numeric` is set, try
`read_numeric`, returning immediately on success and overwriting `err`
on failure; then, if `allow_text` is set, try `read_textual_classic`,
returning immediately on success and overwriting `err` on failure;
finally return `unexpected(err)`.  The triple threaded through
`numeric_step` is (early-success result, current err, current value
slot). -/
def read_classic (m_options : Nat) (range : List Char) (value : Bool) :
    Except scan_error (List Char) × Bool :=
  let err : scan_error :=
    ⟨scan_error_kind.invalid_scanned_value, "Failed to read boolean"⟩
  let numeric_step : Option (List Char) × scan_error × Bool :=
    if m_options &&& allow_numeric ≠ 0 then
      match read_numeric range value with
      | (Except.ok r, v) => (some r, err, v)
      | (Except.error e, v) => (none, e, v)
    else (none, err, value)
  match numeric_step with
  | (some r, _, v) => (Except.ok r, v)
  | (none, e, v) =>
    if m_options &&& allow_text ≠ 0 then
      match read_textual_classic range v with
      | (Except.ok r, v2) => (Except.ok r, v2)
      | (Except.error e2, v2) => (Except.error e2, v2)
    else (Except.error e, v)

/-- Modelled from the spec: the locale contract
`namesFor(localeId) -> (trueSpelling, falseSpelling)`.  The
`detail::locale_ref` / `std::numpunct` facet machinery is not under
`src/`; the reader only consumes the two spellings, so the locale is
embedded as that pair of code-unit sequences. -/
structure locale_ref where
  truename : List Char
  falsename : List Char
deriving DecidableEq, Repr

/-- `bool_reader::read_textual_custom`: order the two spellings by
length (`is_truename_shorter` uses `<=`, so the true spelling wins
ties), pair each spelling with its boolean value, try the shorter
spelling first, then the longer; assign the value paired with whichever
spelling matched. -/
def read_textual_custom (range : List Char) (value : Bool)
    (truename falsename : List Char) :
    Except scan_error (List Char) × Bool :=
  let is_truename_shorter : Bool :=
    decide (truename.length ≤ falsename.length)
  let shorter : List Char × Bool :=
    (if is_truename_shorter then truename else falsename,
     is_truename_shorter)
  let longer : List Char × Bool :=
    (if !is_truename_shorter then truename else falsename,
     !is_truename_shorter)
  match read_matching_string range shorter.1 with
  | some r => (Except.ok r, shorter.2)
  | none =>
    match read_matching_string range longer.1 with
    | some r => (Except.ok r, longer.2)
    | none =>
      (Except.error
        ⟨scan_error_kind.invalid_scanned_value, "read_textual: No match"⟩,
       value)

/-- `bool_reader::read_localized`: same skeleton as `read_classic`, but
the textual strategy fetches the locale's `truename`/`falsename` and
calls `read_textual_custom`.  The locale is consulted only inside the
`allow_text` branch, as in the source. -/
def read_localized (m_options : Nat) (range : List Char)
    (loc : locale_ref) (value : Bool) :
    Except scan_error (List Char) × Bool :=
  let err : scan_error :=
    ⟨scan_error_kind.invalid_scanned_value, "Failed to read boolean"⟩
  let numeric_step : Option (List Char) × scan_error × Bool :=
    if m_options &&& allow_numeric ≠ 0 then
      match read_numeric range value with
      | (Except.ok r, v) => (some r, err, v)
      | (Except.error e, v) => (none, e, v)
    else (none, err, value)
  match numeric_step with
  | (some r, _, v) => (Except.ok r, v)
  | (none, e, v) =>
    if m_options &&& allow_text ≠ 0 then
      match read_textual_custom range v loc.truename loc.falsename with
      | (Except.ok r, v2) => (Except.ok r, v2)
      | (Except.error e2, v2) => (Except.error e2, v2)
    else (Except.error e, v)

/-- Modelled from the spec: `detail::presentation_type` (from
`scn/detail/format_string.h`, not under `src/`) — an enumeration with at
least `default`, `string` and `int_generic`; `other n` stands for every
further enumerated presentation type. -/
inductive presentation_type where
  | default
  | string
  | int_generic
  | other (n : Nat)
deriving DecidableEq, Repr

/-- Modelled from the spec: `detail::basic_format_specs` (not under
`src/`) restricted to the fields the boolean reader reads: the
presentation `type` and the `localized` flag. -/
structure basic_format_specs where
  type : presentation_type
  localized : Bool
deriving DecidableEq, Repr

/-- `reader<bool, CharT, void>::get_options`: switch on `specs.type`;
`string` enables only text, `int_generic` only numeric, every other
presentation type (the `default` case of the switch) enables both. -/
def get_options (specs : basic_format_specs) : Nat :=
  match specs.type with
  | presentation_type.string => allow_text
  | presentation_type.int_generic => allow_numeric
  | _ => allow_text ||| allow_numeric

/-- `reader<bool, CharT, void>::read_default`: the locale argument is
explicitly unused (`SCN_UNUSED(loc)`); a default-constructed
`bool_reader` (whose `m_options` defaults to
`allow_text | allow_numeric`) performs a classic read. -/
def read_default (range : List Char) (value : Bool) (loc : locale_ref) :
    Except scan_error (List Char) × Bool :=
  read_classic (allow_text ||| allow_numeric) range value

/-- `reader<bool, CharT, void>::read_specs`: build a reader from
`get_options specs`; dispatch to `read_localized` when the spec's
`localized` flag is set, else to `read_classic`. -/
def read_specs (range : List Char) (specs : basic_format_specs)
    (value : Bool) (loc : locale_ref) :
    Except scan_error (List Char) × Bool :=
  let rd := get_options specs
  if specs.localized then read_localized rd range loc value
  else read_classic rd range value

/-! Helper lemmas shared by the claim theorems. -/

/-- The identity-shaped match that the early-return translation of the
textual branch produces is the identity. -/
theorem except_pair_eta (p : Except scan_error (List Char) × Bool) :
    (match p with
     | (Except.ok r, v) => ((Except.ok r : Except scan_error (List Char)), v)
     | (Except.error e, v) => (Except.error e, v)) = p := by
  rcases p with ⟨res, v⟩
  cases res <;> rfl

/-- A failing `read_numeric` leaves the value slot unchanged. -/
theorem read_numeric_error_keeps_value (range : List Char) (value : Bool)
    (e : scan_error) (h : (read_numeric range value).1 = Except.error e) :
    (read_numeric range value).2 = value := by
  unfold read_numeric at h ⊢
  cases h0 : read_matching_code_unit range '0' <;>
    cases h1 : read_matching_code_unit range '1' <;>
    simp [h0, h1] at h ⊢

/-- Branch characterization of `read_classic`: numeric first when enabled,
then textual when enabled, else the pending error (textual's error when
numeric failed and textual ran, numeric's when only numeric ran, the
generic error when nothing ran). -/
theorem read_classic_eq (m_options : Nat) (range : List Char) (value : Bool) :
    read_classic m_options range value =
      if m_options &&& allow_numeric ≠ 0 then
        match read_numeric range value with
        | (Except.ok r, v) => (Except.ok r, v)
        | (Except.error e, v) =>
          if m_options &&& allow_text ≠ 0 then read_textual_classic range v
          else (Except.error e, v)
      else
        if m_options &&& allow_text ≠ 0 then read_textual_classic range value
        else (Except.error
          ⟨scan_error_kind.invalid_scanned_value, "Failed to read boolean"⟩,
          value) := by
  unfold read_classic
  by_cases hnum : m_options &&& allow_numeric ≠ 0 <;>
    by_cases htext : m_options &&& allow_text ≠ 0 <;>
    rcases hn : read_numeric range value with ⟨fst, snd⟩ <;>
    cases fst <;>
    simp [hnum, htext, hn, except_pair_eta]

/-- Branch characterization of `read_localized`, parallel to
`read_classic_eq`. -/
theorem read_localized_eq (m_options : Nat) (range : List Char)
    (loc : locale_ref) (value : Bool) :
    read_localized m_options range loc value =
      if m_options &&& allow_numeric ≠ 0 then
        match read_numeric range value with
        | (Except.ok r, v) => (Except.ok r, v)
        | (Except.error e, v) =>
          if m_options &&& allow_text ≠ 0 then
            read_textual_custom range v loc.truename loc.falsename
          else (Except.error e, v)
      else
        if m_options &&& allow_text ≠ 0 then
          read_textual_custom range value loc.truename loc.falsename
        else (Except.error
          ⟨scan_error_kind.invalid_scanned_value, "Failed to read boolean"⟩,
          value) := by
  unfold read_localized
  by_cases hnum : m_options &&& allow_numeric ≠ 0 <;>
    by_cases htext : m_options &&& allow_text ≠ 0 <;>
    rcases hn : read_numeric range value with ⟨fst, snd⟩ <;>
    cases fst <;>
    simp [hnum, htext, hn, except_pair_eta]

/-- When the textual strategy is enabled and the numeric strategy is
disabled or has failed, `read_classic` behaves exactly as
`read_textual_classic` on the original slot contents. -/
theorem read_classic_textual_branch (m_options : Nat) (range : List Char)
    (value : Bool) (htext : m_options &&& allow_text ≠ 0)
    (hnum : m_options &&& allow_numeric = 0 ∨
      (∃ e, (read_numeric range value).1 = Except.error e)) :
    read_classic m_options range value = read_textual_classic range value := by
  rw [read_classic_eq]
  rcases hnum with hdis | ⟨e, herr⟩
  · simp [hdis, htext]
  · have hval : (read_numeric range value).2 = value :=
      read_numeric_error_keeps_value range value e herr
    by_cases hnum2 : m_options &&& allow_numeric ≠ 0
    · rcases hn : read_numeric range value with ⟨fst, snd⟩
      cases fst with
      | ok r => rw [hn] at herr; simp at herr
      | error e2 =>
        have : snd = value := by rw [hn] at hval; exact hval
        subst this
        simp [hnum2, hn, htext]
    · simp at hnum2
      simp [hnum2, htext]

/-- Branch characterization of `read_textual_custom`: the true spelling
is tried first exactly when its length is at most the false spelling's. -/
theorem read_textual_custom_eq (range : List Char) (value : Bool)
    (truename falsename : List Char) :
    read_textual_custom range value truename falsename =
      if truename.length ≤ falsename.length then
        match read_matching_string range truename with
        | some r => (Except.ok r, true)
        | none =>
          match read_matching_string range falsename with
          | some r => (Except.ok r, false)
          | none =>
            (Except.error ⟨scan_error_kind.invalid_scanned_value,
              "read_textual: No match"⟩, value)
      else
        match read_matching_string range falsename with
        | some r => (Except.ok r, false)
        | none =>
          match read_matching_string range truename with
          | some r => (Except.ok r, true)
          | none =>
            (Except.error ⟨scan_error_kind.invalid_scanned_value,
              "read_textual: No match"⟩, value) := by
  unfold read_textual_custom
  by_cases hlen : truename.length ≤ falsename.length <;> simp [hlen]

/-- A failing `read_textual_classic` leaves the value slot unchanged. -/
theorem read_textual_classic_error_keeps_value (range : List Char)
    (value : Bool) (e : scan_error)
    (h : (read_textual_classic range value).1 = Except.error e) :
    (read_textual_classic range value).2 = value := by
  unfold read_textual_classic at h ⊢
  cases h1 : read_matching_string_classic range ('t' :: 'r' :: 'u' :: 'e' :: []) <;>
    cases h2 : read_matching_string_classic range
      ('f' :: 'a' :: 'l' :: 's' :: 'e' :: []) <;>
    simp [h1, h2] at h ⊢

/-- A failing `read_textual_custom` leaves the value slot unchanged. -/
theorem read_textual_custom_error_keeps_value (range : List Char)
    (value : Bool) (truename falsename : List Char) (e : scan_error)
    (h : (read_textual_custom range value truename falsename).1 =
      Except.error e) :
    (read_textual_custom range value truename falsename).2 = value := by
  rw [read_textual_custom_eq] at h ⊢
  by_cases hlen : truename.length ≤ falsename.length <;>
    cases h1 : read_matching_string range truename <;>
    cases h2 : read_matching_string range falsename <;>
    simp [hlen, h1, h2] at h ⊢

/-- A failing `read_classic` leaves the value slot unchanged. -/
theorem read_classic_error_keeps_value (m_options : Nat) (range : List Char)
    (value : Bool) (e : scan_error)
    (h : (read_classic m_options range value).1 = Except.error e) :
    (read_classic m_options range value).2 = value := by
  by_cases hnum : m_options &&& allow_numeric ≠ 0
  · rcases hn : read_numeric range value with ⟨fst, snd⟩
    cases fst with
    | ok r =>
      rw [read_classic_eq] at h
      simp [hnum, hn] at h
    | error e2 =>
      have hsnd : snd = value := by
        have h3 := read_numeric_error_keeps_value range value e2 (by rw [hn])
        rw [hn] at h3
        exact h3
      by_cases htext : m_options &&& allow_text ≠ 0
      · rw [read_classic_eq] at h ⊢
        simp [hnum, hn, htext] at h ⊢
        have h4 := read_textual_classic_error_keeps_value range snd e h
        rw [h4, hsnd]
      · rw [read_classic_eq]
        simp [hnum, hn, htext, hsnd]
  · simp at hnum
    by_cases htext : m_options &&& allow_text ≠ 0
    · rw [read_classic_eq] at h ⊢
      simp [hnum, htext] at h ⊢
      exact read_textual_classic_error_keeps_value range value e h
    · rw [read_classic_eq]
      simp [hnum, htext]

/-- A failing `read_localized` leaves the value slot unchanged. -/
theorem read_localized_error_keeps_value (m_options : Nat)
    (range : List Char) (loc : locale_ref) (value : Bool) (e : scan_error)
    (h : (read_localized m_options range loc value).1 = Except.error e) :
    (read_localized m_options range loc value).2 = value := by
  by_cases hnum : m_options &&& allow_numeric ≠ 0
  · rcases hn : read_numeric range value with ⟨fst, snd⟩
    cases fst with
    | ok r =>
      rw [read_localized_eq] at h
      simp [hnum, hn] at h
    | error e2 =>
      have hsnd : snd = value := by
        have h3 := read_numeric_error_keeps_value range value e2 (by rw [hn])
        rw [hn] at h3
        exact h3
      by_cases htext : m_options &&& allow_text ≠ 0
      · rw [read_localized_eq] at h ⊢
        simp [hnum, hn, htext] at h ⊢
        have h4 := read_textual_custom_error_keeps_value range snd
          loc.truename loc.falsename e h
        rw [h4, hsnd]
      · rw [read_localized_eq]
        simp [hnum, hn, htext, hsnd]
  · simp at hnum
    by_cases htext : m_options &&& allow_text ≠ 0
    · rw [read_localized_eq] at h ⊢
      simp [hnum, htext] at h ⊢
      exact read_textual_custom_error_keeps_value range value
        loc.truename loc.falsename e h
    · rw [read_localized_eq]
      simp [hnum, htext]

/-! Claim theorems. -/

/-- Claim C1: for every input range and every options value, `read_classic`
attempts the numeric strategy first whenever `allow_numeric` is set and
returns exactly the numeric result on numeric success, so the textual
strategy never influences that outcome; the textual strategy is attempted
only if the numeric one failed or was disabled, in which case the whole
read equals the textual read (hence also returns immediately on textual
success). -/
theorem read_classic_numeric_priority (m_options : Nat) (range : List Char)
    (value : Bool) :
    (m_options &&& allow_numeric ≠ 0 →
      ∀ r v, read_numeric range value = (Except.ok r, v) →
        read_classic m_options range value = (Except.ok r, v)) ∧
    (m_options &&& allow_text ≠ 0 →
      (m_options &&& allow_numeric = 0 ∨
        (∃ e, (read_numeric range value).1 = Except.error e)) →
      read_classic m_options range value = read_textual_classic range value) := by
  constructor
  · intro hnum r v h
    rw [read_classic_eq]
    simp [hnum, h]
  · intro htext hnum
    exact read_classic_textual_branch m_options range value htext hnum

/-- Claim C1 witness: with both strategies enabled and input `"1x"`, the
numeric strategy succeeds and `read_classic` returns its result. -/
theorem read_classic_numeric_priority_witness :
    (3 : Nat) &&& allow_numeric ≠ 0 ∧
    read_numeric ['1', 'x'] false = (Except.ok ['x'], true) ∧
    read_classic 3 ['1', 'x'] false = (Except.ok ['x'], true) :=
  ⟨by decide, rfl,
   (read_classic_numeric_priority 3 ['1', 'x'] false).1 (by decide)
     ['x'] true rfl⟩

/-- Claim C2: when both strategies are enabled in `read_classic` and both
fail, the error returned is the textual strategy's error (the last
strategy attempted), and in particular not the numeric strategy's error
whenever the two errors differ. -/
theorem read_classic_error_is_textual (m_options : Nat) (range : List Char)
    (value : Bool) (e1 e2 : scan_error) :
    m_options &&& allow_numeric ≠ 0 → m_options &&& allow_text ≠ 0 →
    (read_numeric range value).1 = Except.error e1 →
    (read_textual_classic range value).1 = Except.error e2 →
    (read_classic m_options range value).1 = Except.error e2 ∧
      (e1 ≠ e2 → (read_classic m_options range value).1 ≠ Except.error e1) := by
  intro hnum htext hn ht
  have heq : read_classic m_options range value =
      read_textual_classic range value :=
    read_classic_textual_branch m_options range value htext (Or.inr ⟨e1, hn⟩)
  refine ⟨by rw [heq, ht], ?_⟩
  intro hne
  rw [heq, ht]
  simp
  intro h
  exact hne h.symm

/-- Claim C2 witness: with both strategies enabled and input `"z"`, both
strategies fail and the surfaced error is the textual one. -/
theorem read_classic_error_is_textual_witness :
    (read_classic 3 ['z'] false).1 =
      Except.error ⟨scan_error_kind.invalid_scanned_value,
        "read_textual: No match"⟩ :=
  (read_classic_error_is_textual 3 ['z'] false
    ⟨scan_error_kind.invalid_scanned_value, "read_numeric: No match"⟩
    ⟨scan_error_kind.invalid_scanned_value, "read_textual: No match"⟩
    (by decide) (by decide) rfl rfl).1

/-- Claim C3: `read_textual_custom` orders the two locale spellings by
length and attempts the shorter first; whichever spelling matches, the
assigned boolean is the one associated with that spelling.  With
spellings `"yes"`/`"no"`, input `"no"` yields `false` consuming both
code units, input `"yes"` yields `true` consuming all three, and input
`"y"` fails. -/
theorem read_textual_custom_tiebreak (range : List Char) (value : Bool)
    (truename falsename : List Char) :
    (truename.length ≤ falsename.length →
      (∀ r, read_matching_string range truename = some r →
        read_textual_custom range value truename falsename =
          (Except.ok r, true)) ∧
      (read_matching_string range truename = none →
        ∀ r, read_matching_string range falsename = some r →
          read_textual_custom range value truename falsename =
            (Except.ok r, false))) ∧
    (falsename.length < truename.length →
      (∀ r, read_matching_string range falsename = some r →
        read_textual_custom range value truename falsename =
          (Except.ok r, false)) ∧
      (read_matching_string range falsename = none →
        ∀ r, read_matching_string range truename = some r →
          read_textual_custom range value truename falsename =
            (Except.ok r, true))) ∧
    (read_textual_custom ('n' :: 'o' :: []) value ('y' :: 'e' :: 's' :: [])
        ('n' :: 'o' :: []) = (Except.ok [], false)) ∧
    (read_textual_custom ('y' :: 'e' :: 's' :: []) value
        ('y' :: 'e' :: 's' :: []) ('n' :: 'o' :: []) = (Except.ok [], true)) ∧
    (read_textual_custom ('y' :: []) value ('y' :: 'e' :: 's' :: [])
        ('n' :: 'o' :: []) =
      (Except.error ⟨scan_error_kind.invalid_scanned_value,
        "read_textual: No match"⟩, value)) := by
  refine ⟨?_, ?_, by exact rfl, by exact rfl, by exact rfl⟩
  · intro hlen
    constructor
    · intro r hr
      rw [read_textual_custom_eq]
      simp [hlen, hr]
    · intro hnone r hr
      rw [read_textual_custom_eq]
      simp [hlen, hnone, hr]
  · intro hlen
    have hlen2 : ¬ truename.length ≤ falsename.length := not_le.mpr hlen
    constructor
    · intro r hr
      rw [read_textual_custom_eq]
      simp [hlen2, hr]
    · intro hnone r hr
      rw [read_textual_custom_eq]
      simp [hlen2, hnone, hr]

/-- Claim C3 witness: with true spelling `"no"` and false spelling
`"real"`, the shorter spelling `"no"` matches input `"now"` and its
associated value `true` is assigned. -/
theorem read_textual_custom_tiebreak_witness :
    ('n' :: 'o' :: []).length ≤ ('r' :: 'e' :: 'a' :: 'l' :: []).length ∧
    read_matching_string ('n' :: 'o' :: 'w' :: []) ('n' :: 'o' :: []) =
      some ['w'] ∧
    read_textual_custom ('n' :: 'o' :: 'w' :: []) false ('n' :: 'o' :: [])
      ('r' :: 'e' :: 'a' :: 'l' :: []) = (Except.ok ['w'], true) :=
  ⟨by decide, rfl,
   ((read_textual_custom_tiebreak ('n' :: 'o' :: 'w' :: []) false
      ('n' :: 'o' :: []) ('r' :: 'e' :: 'a' :: 'l' :: [])).1
      (by decide)).1 ['w'] rfl⟩

/-- Claim C4: `get_options` is characterized entirely by the spec's
presentation type — `string` gives text-only, `int_generic` gives
numeric-only, every other presentation type (including the default one)
gives both bits — and two specs with the same presentation type get the
same options. -/
theorem get_options_pure_total (specs : basic_format_specs) :
    (get_options specs =
      if specs.type = presentation_type.string then allow_text
      else if specs.type = presentation_type.int_generic then allow_numeric
      else allow_text ||| allow_numeric) ∧
    (∀ s2 : basic_format_specs, s2.type = specs.type →
      get_options s2 = get_options specs) := by
  constructor
  · rcases specs with ⟨t, l⟩
    cases t <;> rfl
  · intro s2 h
    rcases specs with ⟨t, l⟩
    rcases s2 with ⟨t2, l2⟩
    simp at h
    subst h
    rfl

/-- Claim C4 witness: the `string` presentation type gives text-only
options regardless of the `localized` flag. -/
theorem get_options_pure_total_witness :
    get_options ⟨presentation_type.string, true⟩ = allow_text ∧
    get_options ⟨presentation_type.string, false⟩ =
      get_options ⟨presentation_type.string, true⟩ :=
  ⟨by
    have h := (get_options_pure_total ⟨presentation_type.string, true⟩).1
    simpa using h,
   (get_options_pure_total ⟨presentation_type.string, true⟩).2
     ⟨presentation_type.string, false⟩ rfl⟩

/-- Claim C5: `read_numeric` matches exactly one code unit — a leading
`'0'` yields `false` consuming one unit, a leading `'1'` yields `true`
consuming one unit, and any other input fails with an
`invalid_scanned_value` error (the failing primitive leaves the position
untouched, so nothing is consumed) and an unchanged value slot. -/
theorem read_numeric_single_code_unit (range : List Char) (value : Bool) :
    (range.head? = some '0' →
      read_numeric range value = (Except.ok (range.drop 1), false)) ∧
    (range.head? = some '1' →
      read_numeric range value = (Except.ok (range.drop 1), true)) ∧
    (range.head? ≠ some '0' → range.head? ≠ some '1' →
      read_numeric range value =
        (Except.error
          ⟨scan_error_kind.invalid_scanned_value, "read_numeric: No match"⟩,
         value)) := by
  refine ⟨?_, ?_, ?_⟩
  · intro h
    match range, h with
    | c :: rest, h =>
      simp at h
      subst h
      rfl
  · intro h
    match range, h with
    | c :: rest, h =>
      simp at h
      subst h
      rfl
  · intro h0 h1
    match range with
    | [] => rfl
    | c :: rest =>
      simp at h0 h1
      simp [read_numeric, read_matching_code_unit, h0, h1]

/-- Claim C5 witness: input `"1x"` yields `true` and consumes exactly the
first code unit. -/
theorem read_numeric_single_code_unit_witness :
    read_numeric ['1', 'x'] false = (Except.ok ['x'], true) :=
  (read_numeric_single_code_unit ['1', 'x'] false).2.1 rfl

/-- Claim C6: `read_textual_classic` matches the literal `"true"`
yielding `true` and consuming 4 code units, else `"false"` yielding
`false` and consuming 5; matching is case-sensitive (`"TRUE"` fails with
the value slot unchanged), and every failure carries the
`invalid_scanned_value` error kind (and, the failing primitives being
backtracking-safe, consumes nothing). -/
theorem read_textual_classic_literals (range rest : List Char) (value : Bool) :
    (read_textual_classic ('t' :: 'r' :: 'u' :: 'e' :: rest) value =
      (Except.ok rest, true)) ∧
    (read_textual_classic ('f' :: 'a' :: 'l' :: 's' :: 'e' :: rest) value =
      (Except.ok rest, false)) ∧
    (read_textual_classic ('T' :: 'R' :: 'U' :: 'E' :: rest) value =
      (Except.error ⟨scan_error_kind.invalid_scanned_value,
        "read_textual: No match"⟩, value)) ∧
    (∀ e, (read_textual_classic range value).1 = Except.error e →
      e = ⟨scan_error_kind.invalid_scanned_value, "read_textual: No match"⟩) := by
  refine ⟨by exact rfl, by exact rfl, by exact rfl, ?_⟩
  intro e h
  unfold read_textual_classic at h
  cases h1 : read_matching_string_classic range ('t' :: 'r' :: 'u' :: 'e' :: []) <;>
    cases h2 : read_matching_string_classic range
      ('f' :: 'a' :: 'l' :: 's' :: 'e' :: []) <;>
    simp [h1, h2] at h
  exact h.symm

/-- Claim C6 witness: input `"z"` fails and the resulting error has kind
`invalid_scanned_value`. -/
theorem read_textual_classic_literals_witness :
    (read_textual_classic ['z'] true).1 =
      Except.error ⟨scan_error_kind.invalid_scanned_value,
        "read_textual: No match"⟩ ∧
    (⟨scan_error_kind.invalid_scanned_value, "read_textual: No match"⟩ :
        scan_error).kind = scan_error_kind.invalid_scanned_value :=
  ⟨rfl, congrArg scan_error.kind
    ((read_textual_classic_literals ['z'] [] true).2.2.2 _ rfl).symm⟩

/-- Claim C7: with neither `allow_text` nor `allow_numeric` set, both
`read_classic` and `read_localized` fail immediately with the generic
"Failed to read boolean" `invalid_scanned_value` error, leave the value
slot unchanged, and the localized result does not depend on the locale
(the right-hand sides are locale-free). -/
theorem read_no_strategy_generic_error (m_options : Nat) (range : List Char)
    (value : Bool) (loc : locale_ref)
    (htext : m_options &&& allow_text = 0)
    (hnum : m_options &&& allow_numeric = 0) :
    read_classic m_options range value =
      (Except.error ⟨scan_error_kind.invalid_scanned_value,
        "Failed to read boolean"⟩, value) ∧
    read_localized m_options range loc value =
      (Except.error ⟨scan_error_kind.invalid_scanned_value,
        "Failed to read boolean"⟩, value) := by
  rw [read_classic_eq, read_localized_eq]
  simp [htext, hnum]

/-- Claim C7 witness: with zero options, even input `"1"` fails with the
generic error, under any locale. -/
theorem read_no_strategy_generic_error_witness :
    (0 : Nat) &&& allow_text = 0 ∧ (0 : Nat) &&& allow_numeric = 0 ∧
    read_classic 0 ['1'] true =
      (Except.error ⟨scan_error_kind.invalid_scanned_value,
        "Failed to read boolean"⟩, true) ∧
    read_localized 0 ['1'] ⟨['y'], ['n']⟩ true =
      (Except.error ⟨scan_error_kind.invalid_scanned_value,
        "Failed to read boolean"⟩, true) :=
  ⟨rfl, rfl,
   (read_no_strategy_generic_error 0 ['1'] true ⟨['y'], ['n']⟩ rfl rfl).1,
   (read_no_strategy_generic_error 0 ['1'] true ⟨['y'], ['n']⟩ rfl rfl).2⟩

/-- Claim C8: every read operation of the boolean reader writes the
output slot only on a branch that also returns success — on every error
return, the slot holds exactly the value it held before the call. -/
theorem value_written_only_on_success (m_options : Nat) (range : List Char)
    (value : Bool) (loc : locale_ref) (truename falsename : List Char) :
    (∀ e, (read_classic m_options range value).1 = Except.error e →
      (read_classic m_options range value).2 = value) ∧
    (∀ e, (read_numeric range value).1 = Except.error e →
      (read_numeric range value).2 = value) ∧
    (∀ e, (read_textual_classic range value).1 = Except.error e →
      (read_textual_classic range value).2 = value) ∧
    (∀ e, (read_localized m_options range loc value).1 = Except.error e →
      (read_localized m_options range loc value).2 = value) ∧
    (∀ e, (read_textual_custom range value truename falsename).1 =
        Except.error e →
      (read_textual_custom range value truename falsename).2 = value) :=
  ⟨fun e h => read_classic_error_keeps_value m_options range value e h,
   fun e h => read_numeric_error_keeps_value range value e h,
   fun e h => read_textual_classic_error_keeps_value range value e h,
   fun e h => read_localized_error_keeps_value m_options range loc value e h,
   fun e h =>
     read_textual_custom_error_keeps_value range value truename falsename e h⟩

/-- Claim C8 witness: a fully-enabled classic read failing on `"z"`
leaves the slot's prior value `true` in place. -/
theorem value_written_only_on_success_witness :
    (read_classic 3 ['z'] true).1 =
      Except.error ⟨scan_error_kind.invalid_scanned_value,
        "read_textual: No match"⟩ ∧
    (read_classic 3 ['z'] true).2 = true :=
  ⟨rfl, (value_written_only_on_success 3 ['z'] true ⟨['y'], ['n']⟩
    ['y'] ['n']).1 _ rfl⟩

/-- Claim C9: `read_default` does not depend on its locale argument — any
two locales give identical results — and it equals `read_classic` with
both option bits set. -/
theorem read_default_ignores_locale (range : List Char) (value : Bool)
    (l1 l2 : locale_ref) :
    read_default range value l1 = read_default range value l2 ∧
    read_default range value l1 =
      read_classic (allow_text ||| allow_numeric) range value :=
  ⟨rfl, rfl⟩

/-- Claim C10: when the two locale spellings have equal length,
`read_textual_custom` classifies the true spelling as the shorter
candidate (the comparison is non-strict) and attempts it first, so a
match of the true spelling yields `true`; in particular, with identical
spellings every successful read yields `true`. -/
theorem read_textual_custom_equal_length (range : List Char) (value : Bool)
    (truename falsename : List Char) :
    (truename.length = falsename.length →
      ∀ r, read_matching_string range truename = some r →
        read_textual_custom range value truename falsename =
          (Except.ok r, true)) ∧
    (∀ spelling r,
      (read_textual_custom range value spelling spelling).1 = Except.ok r →
        read_textual_custom range value spelling spelling =
          (Except.ok r, true)) := by
  constructor
  · intro hlen r hr
    rw [read_textual_custom_eq]
    simp [le_of_eq hlen, hr]
  · intro spelling r h
    rw [read_textual_custom_eq] at h ⊢
    simp only [le_refl, if_true, ite_true] at h ⊢
    cases hm : read_matching_string range spelling with
    | some r2 =>
      simp [hm] at h ⊢
      exact h
    | none =>
      simp [hm] at h

/-- Claim C10 witness: equal-length spellings `"ok"`/`"no"` on input
`"ok"` match the true spelling and yield `true`. -/
theorem read_textual_custom_equal_length_witness :
    ('o' :: 'k' :: []).length = ('n' :: 'o' :: []).length ∧
    read_matching_string ('o' :: 'k' :: []) ('o' :: 'k' :: []) = some [] ∧
    read_textual_custom ('o' :: 'k' :: []) false ('o' :: 'k' :: [])
      ('n' :: 'o' :: []) = (Except.ok [], true) :=
  ⟨rfl, rfl,
   (read_textual_custom_equal_length ('o' :: 'k' :: []) false
      ('o' :: 'k' :: []) ('n' :: 'o' :: [])).1 rfl [] rfl⟩
